import Mathlib

/-!
Shallow embedding of the cluster routing engine of `redis/cluster.go`
(go-redis cluster client, annotated fork), together with proofs of the
spec claims about it.

Conventions of the embedding:
* Go `uint32` counters (latency in microseconds, generation) are embedded as
  `Nat`; the only operations performed on them in the modelled code are
  comparisons and stores, so no wraparound arithmetic occurs.
* Fallible Go code is embedded with `Option`/`Except`; a Go `panic`
  (e.g. `rand.Intn(0)`) is embedded as `none`.
* `rand.Intn(k)` draws are embedded by an external stream of naturals,
  reduced `% k`, so every possible draw corresponds to some stream.
* Stateful loops become explicit state passing; network outcomes are
  supplied by an environment record, one outcome per attempt.
-/

namespace GoRedisCluster

/-- A cluster node handle (`clusterNode`): address, measured latency in
microseconds (`latency`, atomic uint32), the `Loading()` flag as observed at
selection time, the generation tag, and whether `Close()` has been called. -/
structure ClusterNode where
  addr : String
  latency : Nat
  loading : Bool
  generation : Nat
  closed : Bool := false
deriving Repr, DecidableEq

/-- `node.Client.Close()` on a collected handle: marks the handle closed. -/
def closeNode (n : ClusterNode) : ClusterNode := { n with closed := true }

/-- `clusterNode.SetGeneration(gen)`: the CAS loop keeps the stored value `v`
when `gen < v` and otherwise stores `gen`; this is its sequential semantics
returning the new stored value. -/
def SetGeneration (gen v : Nat) : Nat := if gen < v then v else gen

/-- The sequence of values taken by a node's `generation` counter, starting
from `v` and applying `SetGeneration` for each requested generation in turn. -/
def generationTrace (v : Nat) : List Nat → List Nat
  | [] => [v]
  | g :: gs => v :: generationTrace (SetGeneration g v) gs

/-- Result of a slot-selection helper: a specific node from the slot list,
the `c.nodes.Random()` fallback, or the Go function returning a `nil` node
with a `nil` error (`slotClosestNode` when every listed node is loading). -/
inductive NodeChoice where
  | node (n : ClusterNode)
  | registryRandom
  | noNode
deriving Repr, DecidableEq

/-- `clusterState.slotMasterNode`: `nodes[0]` when the slot list is nonempty,
else `c.nodes.Random()`. -/
def slotMasterNode : List ClusterNode → NodeChoice
  | [] => NodeChoice.registryRandom
  | n :: _ => NodeChoice.node n

/-- One `rand.Intn(len(nodes)-1) + 1` sample of `slotSlaveNode`'s loop:
the `i`-th stream value reduced into a replica index of `nodes`. -/
def sampleAt (nodes : List ClusterNode) (rng : Nat → Nat) (i : Nat) :
    Option ClusterNode :=
  nodes.get? (rng i % (nodes.length - 1) + 1)

/-- The sampling loop of `slotSlaveNode` for slot lists of length at least 3:
up to `fuel` samples, breaking at the first non-loading one, otherwise
keeping the last sample (`last` is the `slave` variable before the loop). -/
def pickSlave (nodes : List ClusterNode) (rng : Nat → Nat) :
    Nat → Nat → Option ClusterNode → Option ClusterNode
  | _, 0, last => last
  | i, fuel + 1, _ =>
    match sampleAt nodes rng i with
    | none => none
    | some slave =>
      if slave.loading then pickSlave nodes rng (i + 1) fuel (some slave)
      else some slave

/-- `clusterState.slotSlaveNode`: switch on the slot list's length —
0 → `c.nodes.Random()`; 1 → `nodes[0]`; 2 → `nodes[1]` unless it is loading,
else `nodes[0]`; otherwise up to 10 random samples from `nodes[1..]`.
`none` would mean an out-of-range sample index, which cannot occur. -/
def slotSlaveNode (nodes : List ClusterNode) (rng : Nat → Nat) :
    Option NodeChoice :=
  match nodes with
  | [] => some NodeChoice.registryRandom
  | [n] => some (NodeChoice.node n)
  | [m, s] => some (if s.loading then NodeChoice.node m else NodeChoice.node s)
  | _ => (pickSlave nodes rng 0 10 none).map NodeChoice.node

/-- The scan of `slotClosestNode`: skip loading nodes; a non-loading candidate
`n` replaces the incumbent only when the incumbent's latency exceeds `n`'s by
more than the 1 ms threshold (latencies are in microseconds, so 1000). -/
def closestScan : List ClusterNode → Option ClusterNode → Option ClusterNode
  | [], acc => acc
  | n :: rest, acc =>
    if n.loading then closestScan rest acc
    else
      match acc with
      | none => closestScan rest (some n)
      | some cur =>
        if (cur.latency : Int) - (n.latency : Int) > 1000 then
          closestScan rest (some n)
        else closestScan rest (some cur)

/-- `clusterState.slotClosestNode`: `c.nodes.Random()` on an empty slot list;
otherwise the threshold scan over the list, which yields the Go function's
`nil, nil` return (here `noNode`) when every listed node is loading. -/
def slotClosestNode (nodes : List ClusterNode) : NodeChoice :=
  match nodes with
  | [] => NodeChoice.registryRandom
  | _ =>
    match closestScan nodes none with
    | some n => NodeChoice.node n
    | none => NodeChoice.noNode

/-- `clusterState.slotRandomNode`: `nodes[rand.Intn(len(nodes))]`.
`rand.Intn(0)` panics in Go, embedded as `none` on the empty list. -/
def slotRandomNode (nodes : List ClusterNode) (r : Nat) : Option ClusterNode :=
  if h : nodes.length = 0 then none
  else some (nodes.get ⟨r % nodes.length, Nat.mod_lt r (Nat.pos_of_ne_zero h)⟩)

/-- The routing-relevant cluster options: `ReadOnly`, `RouteByLatency`,
`RouteRandomly`. -/
structure RouteFlags where
  readOnly : Bool
  routeByLatency : Bool
  routeRandomly : Bool
deriving Repr, DecidableEq

/-- Outcome of node selection in `cmdSlotAndNode`: a selection result, or the
Go panic raised by `slotRandomNode` on an uncovered slot. -/
inductive Selection where
  | chosen (c : NodeChoice)
  | panicked
deriving Repr, DecidableEq

/-- `ClusterClient.cmdSlotAndNode`, given the already-computed slot's node
list: read-only commands of a read-only client route by latency, randomly, or
to a slave; everything else goes to the slot's master. `cmdReadOnly` is
`cmdInfo.ReadOnly` when command info was found (`cmdInfo != nil`). -/
def cmdSlotAndNode (flags : RouteFlags) (cmdReadOnly : Option Bool)
    (nodes : List ClusterNode) (rng : Nat → Nat) (r : Nat) :
    Option Selection :=
  if cmdReadOnly.getD false && flags.readOnly then
    if flags.routeByLatency then
      some (Selection.chosen (slotClosestNode nodes))
    else if flags.routeRandomly then
      match slotRandomNode nodes r with
      | none => some Selection.panicked
      | some n => some (Selection.chosen (NodeChoice.node n))
    else (slotSlaveNode nodes rng).map Selection.chosen
  else some (Selection.chosen (slotMasterNode nodes))

/-- The immutable data a stored snapshot contributes to the holder's
observable behaviour. -/
structure ClusterStateRep where
  generation : Nat
deriving Repr, DecidableEq

/-- `clusterStateHolder`: atomically stored snapshot, sticky last error, and
the single-flight `reloading` flag. -/
structure ClusterStateHolder where
  state : Option ClusterStateRep
  lastErr : Option String
  reloading : Bool
deriving Repr, DecidableEq

/-- `clusterStateHolder.Load()`: on loader failure, store the error into
`lastErr` and keep everything else; on success, store the snapshot. The
sticky error field is not written on the success path. -/
def Load (h : ClusterStateHolder) (loaded : Except String ClusterStateRep) :
    ClusterStateHolder × Except String ClusterStateRep :=
  match loaded with
  | Except.error e => ({ h with lastErr := some e }, Except.error e)
  | Except.ok s => ({ h with state := some s }, Except.ok s)

/-- `clusterStateHolder.Get()`: the stored snapshot if any, else the sticky
error if any, else the "cluster has no state" error. -/
def Get (h : ClusterStateHolder) : Except String ClusterStateRep :=
  match h.state with
  | some s => Except.ok s
  | none =>
    match h.lastErr with
    | some e => Except.error e
    | none => Except.error "redis: cluster has no state"

/-- Nodes are identified by their address in the dispatcher model. -/
abbrev NodeId := String

/-- Classification of one attempt's outcome in `defaultProcess`, mirroring the
branch taken by the source's error analysis. Modelled from the spec for the
classification predicates of the absent `internal` package: a LOADING reply
that is not handled by the read-only branch surfaces, retryable errors are
transient transport errors, and MOVED/ASK carry the target address. -/
inductive ExecOutcome where
  | ok
  | loadingErr
  | retryableErr
  | movedErr (addr : String)
  | askErr (addr : String)
  | poolClosed
  | otherErr
deriving Repr, DecidableEq

/-- The dispatcher's collaborators for one command dispatch:
`selectNode` is `cmdSlotAndNode` at a given attempt (over the then-current
snapshot), `randomNode` is `c.nodes.Random()`, `getOrCreate` is
`c.nodes.GetOrCreate`, and `exec` gives the outcome of executing the command
on a node (with or without the `ASKING` prefix pipeline). -/
structure DispatchEnv where
  selectNode : Nat → Option NodeId
  randomNode : Nat → Option NodeId
  getOrCreate : String → Option NodeId
  exec : Nat → NodeId → Bool → ExecOutcome

/-- Observable actions of a dispatch: a node round-trip (one per loop attempt
that reaches execution, recording the `ask` flag), a `c.state.LazyReload()`
call, and a `node.MarkAsLoading()` call. -/
inductive Event where
  | execute (attempt : Nat) (node : NodeId) (ask : Bool)
  | lazyReload
  | markLoading (node : NodeId)
deriving Repr, DecidableEq

/-- The retry loop of `ClusterClient.defaultProcess`, with `fuel` remaining
loop iterations (the Go loop runs attempts `0 ≤ attempt ≤ MaxRedirects`).
State: the carried-over node if any, the pending ASK flag, and the event
trace so far. Each branch mirrors the source's classification order:
success; LOADING under a read-only client (mark and retry, the `node`
variable is left as is); retryable (random node); MOVED/ASK (LazyReload,
then GetOrCreate of the target, ASK setting the flag); pool closed (drop the
node); other errors stop. -/
def processLoop (env : DispatchEnv) (readOnly : Bool) :
    Nat → Nat → Option NodeId → Bool → List Event → List Event
  | 0, _, _, _, events => events
  | fuel + 1, attempt, nodeOpt, ask, events =>
    match (match nodeOpt with
           | some n => some n
           | none => env.selectNode attempt) with
    | none => events
    | some node =>
      let events := events ++ [Event.execute attempt node ask]
      match env.exec attempt node ask with
      | ExecOutcome.ok => events
      | ExecOutcome.loadingErr =>
        if readOnly then
          processLoop env readOnly fuel (attempt + 1) (some node) false
            (events ++ [Event.markLoading node])
        else events
      | ExecOutcome.retryableErr =>
        match env.randomNode attempt with
        | none => events
        | some n2 => processLoop env readOnly fuel (attempt + 1) (some n2) false events
      | ExecOutcome.movedErr addr =>
        let events := events ++ [Event.lazyReload]
        match env.getOrCreate addr with
        | none => events
        | some n2 => processLoop env readOnly fuel (attempt + 1) (some n2) false events
      | ExecOutcome.askErr addr =>
        let events := events ++ [Event.lazyReload]
        match env.getOrCreate addr with
        | none => events
        | some n2 => processLoop env readOnly fuel (attempt + 1) (some n2) true events
      | ExecOutcome.poolClosed =>
        processLoop env readOnly fuel (attempt + 1) none false events
      | ExecOutcome.otherErr => events

/-- `ClusterClient.defaultProcess`: run the retry loop from attempt 0 with no
carried-over node and a clear ASK flag, for `maxRedirects + 1` attempts. -/
def defaultProcess (env : DispatchEnv) (readOnly : Bool) (maxRedirects : Nat) :
    List Event :=
  processLoop env readOnly (maxRedirects + 1) 0 none false []

/-- The `MaxRedirects` normalisation in `ClusterOptions.init`: `-1` means 0,
unset (0) defaults to 8. -/
def initMaxRedirects (m : Int) : Int :=
  if m = -1 then 0 else if m = 0 then 8 else m

/-- Number of node round-trips (`execute` events) in a dispatch trace. -/
def countExecutes (evs : List Event) : Nat :=
  evs.countP fun e =>
    match e with
    | Event.execute _ _ _ => true
    | _ => false

/-- Concrete dispatch environment for the ASK-redirect scenario: the slot maps
to node `X`, whose reply to attempt 0 is an ASK redirect to `Y`; `Y` answers
the ASKING pipeline successfully. -/
def askEnv : DispatchEnv where
  selectNode := fun a => if a = 0 then some "X" else none
  randomNode := fun _ => none
  getOrCreate := fun addr => some addr
  exec := fun a _ _ => if a = 0 then ExecOutcome.askErr "Y" else ExecOutcome.ok

/-- Concrete dispatch environment for the LOADING scenario: attempt 0 selects
node `X`, which answers with a LOADING reply; a fresh selection at attempt 1
would give node `Z`; every later execution succeeds. -/
def loadingEnv : DispatchEnv where
  selectNode := fun a => if a = 0 then some "X" else some "Z"
  randomNode := fun _ => none
  getOrCreate := fun _ => none
  exec := fun a _ _ => if a = 0 then ExecOutcome.loadingErr else ExecOutcome.ok

/-- The node registry (`clusterNodes`): every address ever seen (`allAddrs`),
the addresses that answered the liveness probe (`clusterAddrs`), the
address-keyed node table (`allNodes`, association list for the Go map), and
the closed flag. -/
structure Registry where
  allAddrs : List String
  clusterAddrs : List String
  allNodes : List (String × ClusterNode)
  closed : Bool
deriving Repr, DecidableEq

/-- The inner loop of the `remove` helper for one element: delete the first
occurrence of `e` from `ss`, if any. -/
def removeFirstOcc : List String → String → List String
  | [], _ => []
  | s :: rest, e => if s = e then rest else s :: removeFirstOcc rest e

/-- The `remove(ss, es...)` helper: with no elements it empties the slice
(`ss[:0]`); otherwise it deletes the first occurrence of each element. -/
def remove (ss : List String) (es : List String) : List String :=
  match es with
  | [] => []
  | _ => es.foldl removeFirstOcc ss

/-- `delete(c.allNodes, addr)` on the association-list model of the Go map:
remove the entry keyed by `addr`. -/
def eraseKey : List (String × ClusterNode) → String → List (String × ClusterNode)
  | [], _ => []
  | p :: rest, a => if p.1 = a then rest else p :: eraseKey rest a

/-- The loop body of `clusterNodes.GC` over the node table's entries: skip
nodes with `Generation() >= generation`; otherwise remove the address from
`clusterAddrs`, delete the table entry, and collect the node. -/
def gcLoop (gen : Nat) :
    List (String × ClusterNode) → List String → List (String × ClusterNode) →
    List ClusterNode →
    List String × List (String × ClusterNode) × List ClusterNode
  | [], ca, an, col => (ca, an, col)
  | p :: rest, ca, an, col =>
    if gen ≤ p.2.generation then gcLoop gen rest ca an col
    else gcLoop gen rest (remove ca [p.1]) (eraseKey an p.1) (col ++ [p.2])

/-- `clusterNodes.GC(generation)`: run the collection loop over the node
table, then close every collected node (the second component is the closed
collected handles). -/
def GC (r : Registry) (gen : Nat) : Registry × List ClusterNode :=
  match gcLoop gen r.allNodes r.clusterAddrs r.allNodes [] with
  | (ca, an, col) =>
    ({ r with clusterAddrs := ca, allNodes := an }, col.map closeNode)

/-- One reply on a borrowed connection, as classified by the protocol reader:
a status line, the Nil reply (nil array), an error line (with its MOVED/ASK
classification and target address), an array header, or a data value. -/
inductive Reply where
  | status
  | nilReply
  | errReply (moved ask : Bool) (addr : String)
  | arrayHeader (n : Nat)
  | value
deriving Repr, DecidableEq

/-- Result of the transactional read path: success, the dedicated
`TxFailedErr`, the `Nil` error, a protocol mismatch (`expected '*'`), a
surfaced server error, or an I/O failure (connection exhausted). -/
inductive TxOutcome where
  | ok
  | txFailed
  | nilErr
  | protoErr
  | serverErr (moved ask : Bool) (addr : String)
  | ioErr
deriving Repr, DecidableEq

/-- Side effects recorded while reading a transactional pipeline:
re-bucketing a command to a redirect target (with or without an `ASKING`
prefix), a `LazyReload` call, and reading one reply for one command. -/
inductive TxEvent where
  | rebucket (cmd : Nat) (addr : String) (asking : Bool)
  | lazyReloadTx
  | readReplyFor (cmd : Nat) (r : Reply)
deriving Repr, DecidableEq

/-- The collaborators of `checkMovedErr`: whether
`c.nodes.GetOrCreate(addr)` succeeds for a given address. -/
structure TxEnv where
  getOrCreate : String → Bool

/-- `ClusterClient.checkMovedErr` on an error with the given MOVED/ASK
classification: MOVED schedules a `LazyReload` and, when `GetOrCreate`
succeeds, re-buckets the command at the target; ASK re-buckets with an
`ASKING` prefix and schedules no reload. Returns whether the error was
handled, plus the recorded effects. -/
def checkMovedErr (env : TxEnv) (cmd : Nat) (moved ask : Bool)
    (addr : String) : Bool × List TxEvent :=
  if moved then
    if env.getOrCreate addr then
      (true, [TxEvent.lazyReloadTx, TxEvent.rebucket cmd addr false])
    else (false, [TxEvent.lazyReloadTx])
  else if ask then
    if env.getOrCreate addr then (true, [TxEvent.rebucket cmd addr true])
    else (false, [])
  else (false, [])

/-- The queued-acknowledgement loop of `txPipelineReadQueued`: one status
reply per command; an error reply is handed to `checkMovedErr` and, being a
server error either way, the loop continues; an exhausted connection is an
I/O failure. -/
def readQueued (env : TxEnv) :
    List Nat → List Reply → List TxEvent →
    TxOutcome × List Reply × List TxEvent
  | [], conn, evs => (TxOutcome.ok, conn, evs)
  | _ :: _, [], evs => (TxOutcome.ioErr, [], evs)
  | cmd :: cmds, r :: conn, evs =>
    match r with
    | Reply.errReply m a addr =>
      match checkMovedErr env cmd m a addr with
      | (_, evs2) => readQueued env cmds conn (evs ++ evs2)
    | _ => readQueued env cmds conn evs

/-- The loop applying an EXEC-header server error to every contained command
via `checkMovedErr`, stopping at the first command it does not handle. -/
def applyToAll (env : TxEnv) :
    List Nat → Bool → Bool → String → List TxEvent
  | [], _, _, _ => []
  | cmd :: rest, m, a, addr =>
    match checkMovedErr env cmd m a addr with
    | (handled, evs) =>
      if handled then evs ++ applyToAll env rest m a addr else evs

/-- `ClusterClient.txPipelineReadQueued`: read MULTI's status reply, then one
queued acknowledgement per command, then the EXEC header line. A `Nil` header
becomes `TxFailedErr`; an error-line header is surfaced after being applied
to the contained commands; an array header is success; anything else is the
"expected star" protocol error. Returns the outcome, the unread rest of the
connection, and the recorded effects. -/
def txPipelineReadQueued (env : TxEnv) (conn : List Reply)
    (cmds : List Nat) : TxOutcome × List Reply × List TxEvent :=
  match conn with
  | [] => (TxOutcome.ioErr, [], [])
  | r0 :: conn1 =>
    match r0 with
    | Reply.errReply m a addr => (TxOutcome.serverErr m a addr, conn1, [])
    | Reply.nilReply => (TxOutcome.nilErr, conn1, [])
    | _ =>
      match readQueued env cmds conn1 [] with
      | (TxOutcome.ok, conn2, evs) =>
        match conn2 with
        | [] => (TxOutcome.ioErr, [], evs)
        | h :: conn3 =>
          match h with
          | Reply.nilReply => (TxOutcome.txFailed, conn3, evs)
          | Reply.errReply m a addr =>
            (TxOutcome.serverErr m a addr, conn3,
              evs ++ applyToAll env cmds m a addr)
          | Reply.arrayHeader _ => (TxOutcome.ok, conn3, evs)
          | _ => (TxOutcome.protoErr, conn3, evs)
      | other => other

/-- Modelled from the spec: the plain `pipelineReadCmds(cn, cmds)` helper of
`redis.go` (not under `src/`), which after a successful EXEC header reads
"one reply per command in order". -/
def pipelineReadCmdsSeq : List Nat → List Reply → List TxEvent × TxOutcome
  | [], _ => ([], TxOutcome.ok)
  | _ :: _, [] => ([], TxOutcome.ioErr)
  | cmd :: cmds, r :: conn =>
    match pipelineReadCmdsSeq cmds conn with
    | (evs, out) => (TxEvent.readReplyFor cmd r :: evs, out)

/-- The read phase of `ClusterClient.txPipelineProcessCmds`: read the queued
acknowledgements and the EXEC header; on success read one reply per command
in submission order. -/
def txPipelineProcessCmds (env : TxEnv) (conn : List Reply)
    (cmds : List Nat) : TxOutcome × List TxEvent :=
  match txPipelineReadQueued env conn cmds with
  | (TxOutcome.ok, conn2, evs) =>
    match pipelineReadCmdsSeq cmds conn2 with
    | (evs2, out) => (out, evs ++ evs2)
  | (out, _, evs) => (out, evs)

/-- A stale node handle (generation 1) at address `a`. -/
def cOld : ClusterNode := { addr := "a", latency := 10, loading := false, generation := 1 }

/-- A fresh node handle (generation 5) at address `b`. -/
def cNew : ClusterNode := { addr := "b", latency := 20, loading := false, generation := 5 }

/-- A concrete registry holding one stale and one fresh node. -/
def cRegistry : Registry :=
  { allAddrs := ["a", "b"], clusterAddrs := ["a", "b"],
    allNodes := [("a", cOld), ("b", cNew)], closed := false }

/-- A primary node for the three-node slot-list scenarios. -/
def cP : ClusterNode := { addr := "p", latency := 100, loading := false, generation := 1 }

/-- A loading replica. -/
def cR1 : ClusterNode := { addr := "r1", latency := 200, loading := true, generation := 1 }

/-- A non-loading replica. -/
def cR2 : ClusterNode := { addr := "r2", latency := 300, loading := false, generation := 1 }

/-- The slot list `[P, R1, R2]` with `R1` loading and `R2` available. -/
def cnodes3 : List ClusterNode := [cP, cR1, cR2]

/-- A one-node slot list whose only node is loading. -/
def cLoadingOnly : List ClusterNode :=
  [{ addr := "l", latency := 50, loading := true, generation := 1 }]

section Theorems

/-! Generic helper lemmas. -/

theorem SetGeneration_le (g v : Nat) : v ≤ SetGeneration g v := by
  unfold SetGeneration
  split <;> omega

theorem generationTrace_chain (gs : List Nat) :
    ∀ v : Nat, (generationTrace v gs).Chain' (· ≤ ·) := by
  induction gs with
  | nil => intro v; simp [generationTrace]
  | cons g gs ih =>
    intro v
    have hhead : generationTrace (SetGeneration g v) gs =
        SetGeneration g v :: (generationTrace (SetGeneration g v) gs).tail := by
      cases gs <;> simp [generationTrace]
    rw [generationTrace, hhead, List.chain'_cons, ← hhead]
    exact ⟨SetGeneration_le g v, ih (SetGeneration g v)⟩

/-- C6: the generation counter of a node is non-decreasing across every
sequence of `SetGeneration` calls: each call raises the stored value to the
requested generation when that is larger and leaves it unchanged when it is
smaller. -/
theorem setGeneration_monotone :
    (∀ (v : Nat) (gs : List Nat), (generationTrace v gs).Chain' (· ≤ ·))
    ∧ (∀ g v : Nat, v < g → SetGeneration g v = g)
    ∧ (∀ g v : Nat, g < v → SetGeneration g v = v) := by
  refine ⟨fun v gs => generationTrace_chain gs v, ?_, ?_⟩
  · intro g v h
    unfold SetGeneration
    split <;> omega
  · intro g v h
    unfold SetGeneration
    split <;> omega

/-- Witness for C6 at concrete inputs. -/
theorem setGeneration_monotone_witness :
    (generationTrace 0 [3, 1, 5]).Chain' (· ≤ ·)
    ∧ SetGeneration 5 2 = 5 ∧ SetGeneration 2 5 = 5 :=
  ⟨setGeneration_monotone.1 0 [3, 1, 5],
   setGeneration_monotone.2.1 5 2 (by decide),
   setGeneration_monotone.2.2 2 5 (by decide)⟩

/-- C10: with a read-only client configured for random routing, a read-only
command whose slot has an empty node list makes node selection call
`rand.Intn(0)` and panic (embedded as `Selection.panicked`), whereas the
master, slave, and closest selectors all fall back to `registry.random()` on
the empty list. -/
theorem slotRandomNode_uncovered_slot_panics :
    (∀ (rng : Nat → Nat) (r : Nat),
      cmdSlotAndNode { readOnly := true, routeByLatency := false, routeRandomly := true }
        (some true) [] rng r = some Selection.panicked)
    ∧ (∀ r : Nat, slotRandomNode [] r = none)
    ∧ slotMasterNode [] = NodeChoice.registryRandom
    ∧ (∀ rng : Nat → Nat, slotSlaveNode [] rng = some NodeChoice.registryRandom)
    ∧ slotClosestNode [] = NodeChoice.registryRandom := by
  refine ⟨fun rng r => rfl, fun r => rfl, rfl, fun rng => rfl, rfl⟩

/-- C4 counterexample: a holder with a sticky error; the loader then
succeeds. `Load` stores the snapshot but the sticky error is NOT cleared,
contradicting the claim that success clears it. -/
theorem Load_success_keeps_sticky_error :
    (Load { state := none, lastErr := some "boom", reloading := false }
      (Except.ok { generation := 1 })).1.lastErr = some "boom"
    ∧ (Load { state := none, lastErr := some "boom", reloading := false }
      (Except.ok { generation := 1 })).1.state = some { generation := 1 }
    ∧ some "boom" ≠ (none : Option String) := by
  exact ⟨rfl, rfl, by decide⟩

/-- C4 amended: `Load` on failure stores the error as the sticky error and
leaves any previously stored snapshot intact (`Get` still returns it); on
success it stores the snapshot and leaves the sticky error unchanged (it is
not cleared). -/
theorem Load_spec (h : ClusterStateHolder) (e : String)
    (s s0 : ClusterStateRep) :
    (Load h (Except.error e)).1.state = h.state
    ∧ (Load h (Except.error e)).1.lastErr = some e
    ∧ (h.state = some s0 → Get (Load h (Except.error e)).1 = Except.ok s0)
    ∧ (Load h (Except.ok s)).1.state = some s
    ∧ (Load h (Except.ok s)).1.lastErr = h.lastErr := by
  refine ⟨rfl, rfl, ?_, rfl, rfl⟩
  intro hs
  simp [Load, Get, hs]

/-- Witness for C4 at a concrete holder holding a previous snapshot. -/
theorem Load_spec_witness :
    (Load { state := some { generation := 3 }, lastErr := none, reloading := false }
      (Except.error "down")).1.state = some { generation := 3 }
    ∧ Get (Load { state := some { generation := 3 }, lastErr := none, reloading := false }
        (Except.error "down")).1 = Except.ok { generation := 3 } :=
  ⟨(Load_spec { state := some { generation := 3 }, lastErr := none, reloading := false }
      "down" { generation := 0 } { generation := 3 }).1,
   (Load_spec { state := some { generation := 3 }, lastErr := none, reloading := false }
      "down" { generation := 0 } { generation := 3 }).2.2.1 rfl⟩

theorem countExecutes_append (evs evs2 : List Event) :
    countExecutes (evs ++ evs2) = countExecutes evs + countExecutes evs2 := by
  simp [countExecutes, List.countP_append]

theorem countExecutes_execute (a : Nat) (n : NodeId) (k : Bool) :
    countExecutes [Event.execute a n k] = 1 := rfl

theorem countExecutes_lazyReload : countExecutes [Event.lazyReload] = 0 := rfl

theorem countExecutes_markLoading (n : NodeId) :
    countExecutes [Event.markLoading n] = 0 := rfl

/-- C7 helper: each remaining loop iteration contributes at most one
`execute` event to the trace. -/
theorem processLoop_budget (env : DispatchEnv) (ro : Bool) :
    ∀ (fuel attempt : Nat) (nodeOpt : Option NodeId) (ask : Bool)
      (evs : List Event),
      countExecutes (processLoop env ro fuel attempt nodeOpt ask evs) ≤
        countExecutes evs + fuel := by
  intro fuel
  induction fuel with
  | zero =>
    intro attempt nodeOpt ask evs
    simp [processLoop]
  | succ f ih =>
    intro attempt nodeOpt ask evs
    have hstep : ∀ (evs2 : List Event) (a : Nat) (n : Option NodeId) (k : Bool),
        countExecutes evs2 ≤ countExecutes evs + 1 →
        countExecutes (processLoop env ro f a n k evs2) ≤
          countExecutes evs + (f + 1) :=
      fun evs2 a n k h => le_trans (ih a n k evs2) (by omega)
    simp only [processLoop]
    cases hsel : (match nodeOpt with
                  | some n => some n
                  | none => env.selectNode attempt) with
    | none =>
      dsimp only
      omega
    | some node =>
      dsimp only
      cases hexec : env.exec attempt node ask with
      | ok =>
        dsimp only
        simp only [countExecutes_append, countExecutes_execute]
        omega
      | loadingErr =>
        dsimp only
        cases ro with
        | false =>
          simp only [Bool.false_eq_true, if_false, countExecutes_append,
            countExecutes_execute]
          omega
        | true =>
          simp only [if_true]
          apply hstep
          simp only [countExecutes_append, countExecutes_execute,
            countExecutes_markLoading]
          omega
      | retryableErr =>
        dsimp only
        cases hr : env.randomNode attempt with
        | none =>
          dsimp only
          simp only [countExecutes_append, countExecutes_execute]
          omega
        | some n2 =>
          dsimp only
          apply hstep
          simp only [countExecutes_append, countExecutes_execute]
          omega
      | movedErr addr =>
        dsimp only
        cases hg : env.getOrCreate addr with
        | none =>
          dsimp only
          simp only [countExecutes_append, countExecutes_execute,
            countExecutes_lazyReload]
          omega
        | some n2 =>
          dsimp only
          apply hstep
          simp only [countExecutes_append, countExecutes_execute,
            countExecutes_lazyReload]
          omega
      | askErr addr =>
        dsimp only
        cases hg : env.getOrCreate addr with
        | none =>
          dsimp only
          simp only [countExecutes_append, countExecutes_execute,
            countExecutes_lazyReload]
          omega
        | some n2 =>
          dsimp only
          apply hstep
          simp only [countExecutes_append, countExecutes_execute,
            countExecutes_lazyReload]
          omega
      | poolClosed =>
        dsimp only
        apply hstep
        simp only [countExecutes_append, countExecutes_execute]
        omega
      | otherErr =>
        dsimp only
        simp only [countExecutes_append, countExecutes_execute]
        omega

/-- C7: a single `defaultProcess` dispatch performs at most
`maxRedirects + 1` node round-trips, whatever mix of MOVED, ASK, retryable,
loading, and pool-closed outcomes the attempts produce. -/
theorem defaultProcess_redirect_budget (env : DispatchEnv) (ro : Bool)
    (mr : Nat) : countExecutes (defaultProcess env ro mr) ≤ mr + 1 := by
  have := processLoop_budget env ro (mr + 1) 0 none false []
  simpa [defaultProcess, countExecutes] using this

/-- C1 counterexample: on an ASK redirect the dispatcher DOES invoke
`c.state.LazyReload()` — the source's branch `if moved || ask` schedules the
reload for both redirect kinds — contradicting the claim that the map
holder's reloading state is left untouched on the ASK branch. -/
theorem defaultProcess_ask_reloads :
    defaultProcess askEnv false 8 =
      [Event.execute 0 "X" false, Event.lazyReload, Event.execute 1 "Y" true]
    ∧ Event.lazyReload ∈ defaultProcess askEnv false 8 := by
  refine ⟨rfl, ?_⟩
  rw [show defaultProcess askEnv false 8 =
    [Event.execute 0 "X" false, Event.lazyReload, Event.execute 1 "Y" true] from rfl]
  exact List.Mem.tail _ (List.Mem.head _)

/-- C1 amended: when an attempt's reply is an ASK redirect, the next attempt
uses `GetOrCreate(target_addr)` with the ASK flag set, AND a lazy map reload
is scheduled — `LazyReload` is invoked on the ASK branch exactly as on the
MOVED branch. -/
theorem defaultProcess_ask_branch (env : DispatchEnv) (ro : Bool)
    (fuel attempt : Nat) (node n2 : NodeId) (events : List Event)
    (addr : String)
    (hexec : env.exec attempt node false = ExecOutcome.askErr addr)
    (hget : env.getOrCreate addr = some n2) :
    processLoop env ro (fuel + 1) attempt (some node) false events =
      processLoop env ro fuel (attempt + 1) (some n2) true
        (events ++ [Event.execute attempt node false, Event.lazyReload]) := by
  simp only [processLoop]
  simp [hexec, hget]

/-- Witness for C1's amended theorem at the concrete ASK scenario. -/
theorem defaultProcess_ask_branch_witness :
    processLoop askEnv false 9 0 (some "X") false [] =
      processLoop askEnv false 8 1 (some "Y") true
        ([] ++ [Event.execute 0 "X" false, Event.lazyReload]) :=
  defaultProcess_ask_branch askEnv false 8 0 "X" "Y" [] "Y" rfl rfl

/-- C2 (code bug): with a read-only client, after a LOADING reply the
dispatcher marks the node as loading but keeps the `node` variable, so the
next attempt executes on the very node that reported LOADING — here both
attempt 0 and attempt 1 run on `X` even though a fresh selection at attempt
1 would give `Z` — contradicting the source's own comment ("If slave is
loading - read from master.") and the claim's fresh node selection. -/
theorem defaultProcess_loading_reuses_node :
    defaultProcess loadingEnv true 8 =
      [Event.execute 0 "X" false, Event.markLoading "X",
       Event.execute 1 "X" false]
    ∧ loadingEnv.selectNode 1 = some "Z" :=
  ⟨rfl, rfl⟩

theorem closestScan_all_loading :
    ∀ (l : List ClusterNode) (acc : Option ClusterNode),
      (∀ n ∈ l, n.loading = true) → closestScan l acc = acc := by
  intro l
  induction l with
  | nil => intro acc _; rfl
  | cons n rest ih =>
    intro acc h
    have hn : n.loading = true := h n (by simp)
    simp only [closestScan, hn, if_true]
    exact ih acc fun m hm => h m (by simp [hm])

theorem closestScan_some_of_some :
    ∀ (l : List ClusterNode) (cur : ClusterNode),
      ∃ r, closestScan l (some cur) = some r := by
  intro l
  induction l with
  | nil => intro cur; exact ⟨cur, rfl⟩
  | cons n rest ih =>
    intro cur
    by_cases hl : n.loading = true
    · simpa only [closestScan, hl, if_true] using ih cur
    · have hl2 : n.loading = false := by
        cases hn : n.loading
        · rfl
        · exact absurd hn hl
      simp only [closestScan, hl2, Bool.false_eq_true, if_false]
      by_cases hrep : (cur.latency : Int) - (n.latency : Int) > 1000
      · simpa only [if_pos hrep] using ih n
      · simpa only [if_neg hrep] using ih cur

theorem closestScan_le :
    ∀ (l : List ClusterNode) (cur r : ClusterNode),
      closestScan l (some cur) = some r → r.latency ≤ cur.latency := by
  intro l
  induction l with
  | nil =>
    intro cur r h
    have hcr : cur = r := by
      simpa only [closestScan, Option.some.injEq] using h
    rw [hcr]
  | cons n rest ih =>
    intro cur r h
    by_cases hl : n.loading = true
    · simp only [closestScan, hl, if_true] at h
      exact ih cur r h
    · have hl2 : n.loading = false := by
        cases hn : n.loading
        · rfl
        · exact absurd hn hl
      simp only [closestScan, hl2, Bool.false_eq_true, if_false] at h
      by_cases hrep : (cur.latency : Int) - (n.latency : Int) > 1000
      · rw [if_pos hrep] at h
        have := ih n r h
        omega
      · rw [if_neg hrep] at h
        exact ih cur r h

theorem closestScan_result :
    ∀ (l : List ClusterNode) (acc : Option ClusterNode) (r : ClusterNode),
      closestScan l acc = some r →
      acc = some r ∨ (r ∈ l ∧ r.loading = false) := by
  intro l
  induction l with
  | nil =>
    intro acc r h
    exact Or.inl h
  | cons n rest ih =>
    intro acc r h
    by_cases hl : n.loading = true
    · simp only [closestScan, hl, if_true] at h
      rcases ih acc r h with h1 | h2
      · exact Or.inl h1
      · exact Or.inr ⟨List.mem_cons_of_mem _ h2.1, h2.2⟩
    · have hl2 : n.loading = false := by
        cases hn : n.loading
        · rfl
        · exact absurd hn hl
      simp only [closestScan, hl2, Bool.false_eq_true, if_false] at h
      cases acc with
      | none =>
        dsimp only at h
        rcases ih (some n) r h with h1 | h2
        · have : n = r := by injection h1
          subst this
          exact Or.inr ⟨List.mem_cons_self _ _, hl2⟩
        · exact Or.inr ⟨List.mem_cons_of_mem _ h2.1, h2.2⟩
      | some cur =>
        dsimp only at h
        by_cases hrep : (cur.latency : Int) - (n.latency : Int) > 1000
        · rw [if_pos hrep] at h
          rcases ih (some n) r h with h1 | h2
          · have : n = r := by injection h1
            subst this
            exact Or.inr ⟨List.mem_cons_self _ _, hl2⟩
          · exact Or.inr ⟨List.mem_cons_of_mem _ h2.1, h2.2⟩
        · rw [if_neg hrep] at h
          rcases ih (some cur) r h with h1 | h2
          · exact Or.inl h1
          · exact Or.inr ⟨List.mem_cons_of_mem _ h2.1, h2.2⟩

theorem closestScan_close :
    ∀ (l : List ClusterNode) (acc : Option ClusterNode) (m r : ClusterNode),
      m ∈ l → m.loading = false → closestScan l acc = some r →
      (r.latency : Int) ≤ (m.latency : Int) + 1000 := by
  intro l
  induction l with
  | nil =>
    intro acc m r hm
    exact absurd hm (List.not_mem_nil m)
  | cons n rest ih =>
    intro acc m r hm hml h
    rcases List.mem_cons.mp hm with hm1 | hm2
    · subst hm1
      simp only [closestScan, hml, Bool.false_eq_true, if_false] at h
      cases acc with
      | none =>
        dsimp only at h
        have := closestScan_le rest m r h
        omega
      | some cur =>
        dsimp only at h
        by_cases hrep : (cur.latency : Int) - (m.latency : Int) > 1000
        · rw [if_pos hrep] at h
          have := closestScan_le rest m r h
          omega
        · rw [if_neg hrep] at h
          have := closestScan_le rest cur r h
          omega
    · by_cases hl : n.loading = true
      · simp only [closestScan, hl, if_true] at h
        exact ih acc m r hm2 hml h
      · have hl2 : n.loading = false := by
          cases hn : n.loading
          · rfl
          · exact absurd hn hl
        simp only [closestScan, hl2, Bool.false_eq_true, if_false] at h
        cases acc with
        | none =>
          dsimp only at h
          exact ih (some n) m r hm2 hml h
        | some cur =>
          dsimp only at h
          by_cases hrep : (cur.latency : Int) - (n.latency : Int) > 1000
          · rw [if_pos hrep] at h
            exact ih (some n) m r hm2 hml h
          · rw [if_neg hrep] at h
            exact ih (some cur) m r hm2 hml h

theorem closestScan_isSome :
    ∀ (l : List ClusterNode) (acc : Option ClusterNode) (m : ClusterNode),
      m ∈ l → m.loading = false → ∃ r, closestScan l acc = some r := by
  intro l
  induction l with
  | nil =>
    intro acc m hm
    exact absurd hm (List.not_mem_nil m)
  | cons n rest ih =>
    intro acc m hm hml
    rcases List.mem_cons.mp hm with hm1 | hm2
    · subst hm1
      simp only [closestScan, hml, Bool.false_eq_true, if_false]
      cases acc with
      | none =>
        dsimp only
        exact closestScan_some_of_some rest m
      | some cur =>
        dsimp only
        by_cases hrep : (cur.latency : Int) - (m.latency : Int) > 1000
        · rw [if_pos hrep]
          exact closestScan_some_of_some rest m
        · rw [if_neg hrep]
          exact closestScan_some_of_some rest cur
    · by_cases hl : n.loading = true
      · simp only [closestScan, hl, if_true]
        exact ih acc m hm2 hml
      · have hl2 : n.loading = false := by
          cases hn : n.loading
          · rfl
          · exact absurd hn hl
        simp only [closestScan, hl2, Bool.false_eq_true, if_false]
        cases acc with
        | none =>
          dsimp only
          exact closestScan_some_of_some rest n
        | some cur =>
          dsimp only
          by_cases hrep : (cur.latency : Int) - (n.latency : Int) > 1000
          · rw [if_pos hrep]
            exact closestScan_some_of_some rest n
          · rw [if_neg hrep]
            exact closestScan_some_of_some rest cur

/-- C3 counterexample: a nonempty slot list whose only node is loading makes
`slotClosestNode` return the Go `nil` node (no node at all), not
`registry.random()` as the claim states — the `Random()` fallback fires only
on the empty list. -/
theorem slotClosestNode_all_loading_counterexample :
    slotClosestNode cLoadingOnly = NodeChoice.noNode
    ∧ NodeChoice.noNode ≠ NodeChoice.registryRandom
    ∧ cLoadingOnly ≠ [] :=
  ⟨rfl, by decide, by decide⟩

/-- C3 amended: `slotClosestNode` ignores loading nodes and, whenever a
non-loading node exists, returns a non-loading node whose latency is within
the 1 ms threshold of every non-loading node in the list (a candidate
replaces the incumbent only when the incumbent's latency exceeds the
candidate's by more than 1 ms). When every node in a nonempty list is
loading it returns no node at all (Go's `nil, nil`); `registry.random()` is
used only for the empty list. -/
theorem slotClosestNode_amended :
    slotClosestNode [] = NodeChoice.registryRandom
    ∧ (∀ nodes : List ClusterNode,
        ((∀ n ∈ nodes, n.loading = true) → nodes ≠ [] →
          slotClosestNode nodes = NodeChoice.noNode)
        ∧ (∀ m ∈ nodes, m.loading = false →
            ∃ r, slotClosestNode nodes = NodeChoice.node r ∧ r ∈ nodes ∧
              r.loading = false ∧
              ∀ m2 ∈ nodes, m2.loading = false →
                (r.latency : Int) ≤ (m2.latency : Int) + 1000)) := by
  constructor
  · rfl
  · intro nodes
    constructor
    · intro hall hne
      cases nodes with
      | nil => exact absurd rfl hne
      | cons a l =>
        have h := closestScan_all_loading (a :: l) none hall
        simp only [slotClosestNode, h]
    · intro m hm hml
      obtain ⟨r, hr⟩ := closestScan_isSome nodes none m hm hml
      have hres := closestScan_result nodes none r hr
      rcases hres with h1 | h2
      · exact absurd h1.symm (Option.some_ne_none r)
      · refine ⟨r, ?_, h2.1, h2.2, ?_⟩
        · cases nodes with
          | nil => exact absurd hm (List.not_mem_nil m)
          | cons a l => simp only [slotClosestNode, hr]
        · intro m2 hm2 hm2l
          exact closestScan_close nodes none m2 r hm2 hm2l hr

/-- Witness for C3's amended theorem: the all-loading branch at the
one-loading-node list, and the non-loading branch at `[P, R1, R2]`. -/
theorem slotClosestNode_amended_witness :
    slotClosestNode cLoadingOnly = NodeChoice.noNode
    ∧ ∃ r, slotClosestNode cnodes3 = NodeChoice.node r ∧ r ∈ cnodes3 ∧
        r.loading = false ∧
        ∀ m2 ∈ cnodes3, m2.loading = false →
          (r.latency : Int) ≤ (m2.latency : Int) + 1000 :=
  ⟨(slotClosestNode_amended.2 cLoadingOnly).1 (by decide) (by decide),
   (slotClosestNode_amended.2 cnodes3).2 cR2 (by decide) rfl⟩

theorem sampleAt_some (nodes : List ClusterNode) (rng : Nat → Nat) (i : Nat)
    (h3 : 3 ≤ nodes.length) :
    ∃ m, sampleAt nodes rng i = some m ∧ m ∈ nodes.drop 1 := by
  have hlen : rng i % (nodes.length - 1) + 1 < nodes.length := by
    have h2 : 0 < nodes.length - 1 := by omega
    have := Nat.mod_lt (rng i) h2
    omega
  obtain ⟨m, hm⟩ : ∃ m, nodes.get? (rng i % (nodes.length - 1) + 1) = some m :=
    ⟨_, List.get?_eq_get hlen⟩
  refine ⟨m, hm, ?_⟩
  have hd : (nodes.drop 1).get? (rng i % (nodes.length - 1)) = some m := by
    rw [List.get?_drop]
    simpa [Nat.add_comm] using hm
  exact List.get?_mem hd

theorem pickSlave_spec (nodes : List ClusterNode) (rng : Nat → Nat)
    (h3 : 3 ≤ nodes.length) :
    ∀ (fuel : Nat) (i : Nat) (last : Option ClusterNode), 1 ≤ fuel →
      ∃ n, pickSlave nodes rng i fuel last = some n ∧ n ∈ nodes.drop 1 ∧
        (n.loading = true → ∀ j, i ≤ j → j < i + fuel →
          ∃ m, sampleAt nodes rng j = some m ∧ m.loading = true) := by
  intro fuel
  induction fuel with
  | zero =>
    intro i last h
    omega
  | succ f ih =>
    intro i last _
    obtain ⟨m, hm, hmem⟩ := sampleAt_some nodes rng i h3
    by_cases hml : m.loading = true
    · cases f with
      | zero =>
        refine ⟨m, ?_, hmem, ?_⟩
        · simp only [pickSlave, hm, hml, if_true]
        · intro _ j hj1 hj2
          have hji : j = i := by omega
          subst hji
          exact ⟨m, hm, hml⟩
      | succ f2 =>
        obtain ⟨n, hn, hnmem, hnload⟩ := ih (i + 1) (some m) (by omega)
        refine ⟨n, ?_, hnmem, ?_⟩
        · simp only [pickSlave, hm, hml, if_true]
          exact hn
        · intro hl j hj1 hj2
          by_cases hji : j = i
          · subst hji
            exact ⟨m, hm, hml⟩
          · exact hnload hl j (by omega) (by omega)
    · have hml2 : m.loading = false := by
        cases h : m.loading
        · rfl
        · exact absurd h hml
      refine ⟨m, ?_, hmem, ?_⟩
      · simp only [pickSlave, hm, hml2, Bool.false_eq_true, if_false]
      · intro hl
        exact absurd hl hml

/-- C5 counterexample: the slot list `[P, R1, R2]` has the non-loading
replica `R2`, yet with sample draws that always land on index 1 the sampling
loop returns the loading replica `R1` — so for lists of length ≥ 3 the
function does NOT always return a non-loading replica when one exists. -/
theorem slotSlaveNode_loading_counterexample :
    slotSlaveNode cnodes3 (fun _ => 0) = some (NodeChoice.node cR1)
    ∧ cR1.loading = true
    ∧ cR2 ∈ cnodes3.drop 1 ∧ cR2.loading = false
    ∧ 2 ≤ cnodes3.length :=
  ⟨rfl, rfl, by decide, rfl, by decide⟩

/-- C5 amended: `slotSlaveNode` returns `registry.random()` for an empty
list, `L[0]` for a single-node list, and for a two-node list the replica
`L[1]` unless it is loading (then the primary `L[0]`) — so for size 2 a
non-loading replica is returned whenever one exists. For lists of length
≥ 3 it returns a sample from `L[1..]`; the result can be loading only when
all ten samples were loading (a non-loading replica may then be missed). -/
theorem slotSlaveNode_amended :
    (∀ rng : Nat → Nat, slotSlaveNode [] rng = some NodeChoice.registryRandom)
    ∧ (∀ (n : ClusterNode) (rng : Nat → Nat),
        slotSlaveNode [n] rng = some (NodeChoice.node n))
    ∧ (∀ (m s : ClusterNode) (rng : Nat → Nat), s.loading = false →
        slotSlaveNode [m, s] rng = some (NodeChoice.node s))
    ∧ (∀ (m s : ClusterNode) (rng : Nat → Nat), s.loading = true →
        slotSlaveNode [m, s] rng = some (NodeChoice.node m))
    ∧ (∀ (nodes : List ClusterNode) (rng : Nat → Nat), 3 ≤ nodes.length →
        ∃ n, slotSlaveNode nodes rng = some (NodeChoice.node n) ∧
          n ∈ nodes.drop 1 ∧
          (n.loading = true → ∀ j < 10,
            ∃ m, sampleAt nodes rng j = some m ∧ m.loading = true)) := by
  refine ⟨fun rng => rfl, fun n rng => rfl, ?_, ?_, ?_⟩
  · intro m s rng hs
    simp [slotSlaveNode, hs]
  · intro m s rng hs
    simp [slotSlaveNode, hs]
  · intro nodes rng h3
    obtain ⟨n, hpick, hmem, hload⟩ :=
      pickSlave_spec nodes rng h3 10 0 none (by omega)
    match nodes, h3 with
    | a :: b :: c :: rest, _ =>
      refine ⟨n, ?_, hmem, ?_⟩
      · show (pickSlave (a :: b :: c :: rest) rng 0 10 none).map NodeChoice.node =
          some (NodeChoice.node n)
        rw [hpick]
        rfl
      · intro hl j hj
        exact hload hl j (by omega) (by omega)

/-- Witness for C5's amended theorem: the two-node cases at concrete nodes,
and the length-≥ 3 case at `[P, R1, R2]` with draws landing on `R2`. -/
theorem slotSlaveNode_amended_witness :
    slotSlaveNode [cP, cR2] (fun _ => 0) = some (NodeChoice.node cR2)
    ∧ slotSlaveNode [cP, cR1] (fun _ => 0) = some (NodeChoice.node cP)
    ∧ ∃ n, slotSlaveNode cnodes3 (fun _ => 1) = some (NodeChoice.node n) ∧
        n ∈ cnodes3.drop 1 ∧
        (n.loading = true → ∀ j < 10,
          ∃ m, sampleAt cnodes3 (fun _ => 1) j = some m ∧ m.loading = true) :=
  ⟨slotSlaveNode_amended.2.2.1 cP cR2 (fun _ => 0) rfl,
   slotSlaveNode_amended.2.2.2.1 cP cR1 (fun _ => 0) rfl,
   slotSlaveNode_amended.2.2.2.2 cnodes3 (fun _ => 1) (by decide)⟩

theorem remove_singleton (ss : List String) (a : String) :
    remove ss [a] = removeFirstOcc ss a := rfl

theorem removeFirstOcc_eq_filter (a : String) :
    ∀ l : List String, l.Nodup →
      removeFirstOcc l a = l.filter (fun s => s ≠ a) := by
  intro l
  induction l with
  | nil => intro _; rfl
  | cons s rest ih =>
    intro h
    rcases List.nodup_cons.mp h with ⟨hs, hrest⟩
    by_cases hsa : s = a
    · subst hsa
      simp only [removeFirstOcc, if_pos rfl]
      rw [List.filter_cons_of_neg (by simp)]
      exact (List.filter_eq_self.mpr (fun x hx => by
        simp only [ne_eq, decide_eq_true_eq]
        exact fun hxs => hs (hxs ▸ hx))).symm
    · simp only [removeFirstOcc, if_neg hsa]
      rw [List.filter_cons_of_pos (by simp [hsa])]
      rw [ih hrest]

theorem foldl_removeFirstOcc (ks : List String) :
    ∀ l : List String, l.Nodup →
      ks.foldl removeFirstOcc l = l.filter (fun s => s ∉ ks) := by
  induction ks with
  | nil =>
    intro l _
    simp
  | cons k ks ih =>
    intro l hl
    simp only [List.foldl_cons]
    rw [removeFirstOcc_eq_filter k l hl, ih _ (hl.filter _), List.filter_filter]
    apply List.filter_congr
    intro x _
    by_cases h1 : x = k <;> by_cases h2 : x ∈ ks <;>
      simp [h1, h2, List.mem_cons]

theorem eraseKey_eq_filter (a : String) :
    ∀ l : List (String × ClusterNode), (l.map Prod.fst).Nodup →
      eraseKey l a = l.filter (fun p => p.1 ≠ a) := by
  intro l
  induction l with
  | nil => intro _; rfl
  | cons p rest ih =>
    intro h
    rw [List.map_cons] at h
    rcases List.nodup_cons.mp h with ⟨hp, hrest⟩
    by_cases hpa : p.1 = a
    · subst hpa
      simp only [eraseKey, if_pos rfl]
      rw [List.filter_cons_of_neg (by simp)]
      exact (List.filter_eq_self.mpr (fun q hq => by
        simp only [ne_eq, decide_eq_true_eq]
        intro hq1
        exact hp (hq1 ▸ List.mem_map_of_mem Prod.fst hq))).symm
    · simp only [eraseKey, if_neg hpa]
      rw [List.filter_cons_of_pos (by simp [hpa])]
      rw [ih hrest]

theorem foldl_eraseKey (ks : List String) :
    ∀ l : List (String × ClusterNode), (l.map Prod.fst).Nodup →
      ks.foldl eraseKey l = l.filter (fun p => p.1 ∉ ks) := by
  induction ks with
  | nil =>
    intro l _
    simp
  | cons k ks ih =>
    intro l hl
    have hnd : ((l.filter (fun p => p.1 ≠ k)).map Prod.fst).Nodup :=
      List.Nodup.sublist (List.Sublist.map Prod.fst (List.filter_sublist l)) hl
    simp only [List.foldl_cons]
    rw [eraseKey_eq_filter k l hl, ih _ hnd, List.filter_filter]
    apply List.filter_congr
    intro p _
    by_cases h1 : p.1 = k <;> by_cases h2 : p.1 ∈ ks <;>
      simp [h1, h2, List.mem_cons]

theorem gcLoop_eq (gen : Nat) :
    ∀ (entries : List (String × ClusterNode)) (ca : List String)
      (an : List (String × ClusterNode)) (col : List ClusterNode),
      gcLoop gen entries ca an col =
        (((entries.filter (fun p => p.2.generation < gen)).map Prod.fst).foldl
            removeFirstOcc ca,
         ((entries.filter (fun p => p.2.generation < gen)).map Prod.fst).foldl
            eraseKey an,
         col ++ (entries.filter (fun p => p.2.generation < gen)).map Prod.snd) := by
  intro entries
  induction entries with
  | nil =>
    intro ca an col
    simp [gcLoop]
  | cons p rest ih =>
    intro ca an col
    by_cases hp : gen ≤ p.2.generation
    · have hfilt : (p :: rest).filter (fun q => q.2.generation < gen) =
          rest.filter (fun q => q.2.generation < gen) :=
        List.filter_cons_of_neg (by simp; omega)
      simp only [gcLoop, if_pos hp]
      rw [hfilt]
      exact ih ca an col
    · have hlt : p.2.generation < gen := by omega
      have hfilt : (p :: rest).filter (fun q => q.2.generation < gen) =
          p :: rest.filter (fun q => q.2.generation < gen) :=
        List.filter_cons_of_pos (by simp [hlt])
      simp only [gcLoop, if_neg hp]
      rw [hfilt, remove_singleton,
        ih (removeFirstOcc ca p.1) (eraseKey an p.1) (col ++ [p.2])]
      simp [List.append_assoc]

/-- C8: `GC(g)` removes from the registry exactly the handles whose
generation is strictly below `g`, closes each removed handle, removes each
removed handle's address from `clusterAddrs` (the reachable addresses), and
leaves `allAddrs` (all known addresses) untouched — assuming the node table
has one handle per address and the reachable list has no duplicates, as the
registry maintains. -/
theorem GC_spec (r : Registry) (g : Nat)
    (hk : (r.allNodes.map Prod.fst).Nodup) (hc : r.clusterAddrs.Nodup) :
    (GC r g).1.allNodes = r.allNodes.filter (fun p => g ≤ p.2.generation)
    ∧ (GC r g).2 =
        (r.allNodes.filter (fun p => p.2.generation < g)).map
          (fun p => closeNode p.2)
    ∧ (GC r g).1.clusterAddrs =
        r.clusterAddrs.filter (fun a =>
          a ∉ (r.allNodes.filter (fun p => p.2.generation < g)).map Prod.fst)
    ∧ (GC r g).1.allAddrs = r.allAddrs
    ∧ (GC r g).1.closed = r.closed := by
  have hloop := gcLoop_eq g r.allNodes r.clusterAddrs r.allNodes []
  simp only [GC, hloop]
  refine ⟨?_, ?_, ?_, by trivial, by trivial⟩
  · rw [foldl_eraseKey _ _ hk]
    apply List.filter_congr
    intro p hp
    simp only [decide_eq_decide]
    constructor
    · intro hnot
      by_contra hlt
      have hlt2 : p.2.generation < g := by omega
      have hmemf : p ∈ r.allNodes.filter (fun q => q.2.generation < g) :=
        List.mem_filter.mpr ⟨hp, by simpa using hlt2⟩
      exact hnot (List.mem_map_of_mem Prod.fst hmemf)
    · intro hge hmem
      obtain ⟨q, hqmem, hq1⟩ := List.mem_map.mp hmem
      have hq := List.mem_filter.mp hqmem
      have hqin : q ∈ r.allNodes := hq.1
      have hqlt : q.2.generation < g := by
        have := hq.2
        simpa using this
      have hqp : q = p := List.inj_on_of_nodup_map hk hqin hp hq1
      subst hqp
      omega
  · simp [List.map_map, Function.comp]
  · rw [foldl_removeFirstOcc _ _ hc]

/-- Witness for C8 at a concrete registry: `GC 3` collects the stale node at
`a` and keeps the fresh one at `b`. -/
theorem GC_spec_witness :
    (GC cRegistry 3).1.allNodes =
      cRegistry.allNodes.filter (fun p => 3 ≤ p.2.generation)
    ∧ (GC cRegistry 3).2 =
        (cRegistry.allNodes.filter (fun p => p.2.generation < 3)).map
          (fun p => closeNode p.2)
    ∧ (GC cRegistry 3).1.clusterAddrs =
        cRegistry.clusterAddrs.filter (fun a =>
          a ∉ (cRegistry.allNodes.filter
            (fun p => p.2.generation < 3)).map Prod.fst)
    ∧ (GC cRegistry 3).1.allAddrs = cRegistry.allAddrs
    ∧ (GC cRegistry 3).1.closed = cRegistry.closed :=
  GC_spec cRegistry 3 (by decide) (by decide)

theorem readQueued_statuses (env : TxEnv) :
    ∀ (cmds : List Nat) (rest : List Reply) (evs : List TxEvent),
      readQueued env cmds (cmds.map (fun _ => Reply.status) ++ rest) evs =
        (TxOutcome.ok, rest, evs) := by
  intro cmds
  induction cmds with
  | nil => intro rest evs; rfl
  | cons c cs ih =>
    intro rest evs
    simp only [List.map_cons, List.cons_append, readQueued]
    exact ih rest evs

theorem pipelineReadCmdsSeq_spec :
    ∀ (cmds : List Nat) (replies : List Reply), cmds.length ≤ replies.length →
      pipelineReadCmdsSeq cmds replies =
        ((cmds.zip replies).map (fun p => TxEvent.readReplyFor p.1 p.2),
         TxOutcome.ok) := by
  intro cmds
  induction cmds with
  | nil => intro replies _; rfl
  | cons c cs ih =>
    intro replies hlen
    cases replies with
    | nil => simp at hlen
    | cons r rs =>
      simp only [pipelineReadCmdsSeq]
      rw [ih rs (by simpa using hlen)]
      simp [List.zip_cons_cons]

/-- C9: in the transactional read path, after clean queued acknowledgements,
a `Nil` EXEC header yields the dedicated `TxFailedErr`; an ordinary array
header yields success and the read phase then consumes one reply per command
in submission order. -/
theorem txPipeline_exec_header (env : TxEnv) (cmds : List Nat)
    (replies : List Reply) (hlen : cmds.length ≤ replies.length) :
    (txPipelineProcessCmds env
        (Reply.status :: cmds.map (fun _ => Reply.status) ++ [Reply.nilReply])
        cmds).1 = TxOutcome.txFailed
    ∧ txPipelineProcessCmds env
        (Reply.status :: cmds.map (fun _ => Reply.status) ++
          Reply.arrayHeader cmds.length :: replies) cmds =
        (TxOutcome.ok,
         (cmds.zip replies).map (fun p => TxEvent.readReplyFor p.1 p.2)) := by
  constructor
  · have h1 : txPipelineReadQueued env
        (Reply.status :: cmds.map (fun _ => Reply.status) ++ [Reply.nilReply])
        cmds = (TxOutcome.txFailed, [], []) := by
      show (match readQueued env cmds
          (cmds.map (fun _ => Reply.status) ++ [Reply.nilReply]) [] with
        | (TxOutcome.ok, conn2, evs) =>
          match conn2 with
          | [] => (TxOutcome.ioErr, [], evs)
          | h :: conn3 =>
            match h with
            | Reply.nilReply => (TxOutcome.txFailed, conn3, evs)
            | Reply.errReply m a addr =>
              (TxOutcome.serverErr m a addr, conn3,
                evs ++ applyToAll env cmds m a addr)
            | Reply.arrayHeader _ => (TxOutcome.ok, conn3, evs)
            | _ => (TxOutcome.protoErr, conn3, evs)
        | other => other) = (TxOutcome.txFailed, [], [])
      rw [readQueued_statuses env cmds [Reply.nilReply] []]
    simp only [txPipelineProcessCmds, h1]
  · have h1 : txPipelineReadQueued env
        (Reply.status :: cmds.map (fun _ => Reply.status) ++
          Reply.arrayHeader cmds.length :: replies) cmds =
        (TxOutcome.ok, replies, []) := by
      show (match readQueued env cmds
          (cmds.map (fun _ => Reply.status) ++
            Reply.arrayHeader cmds.length :: replies) [] with
        | (TxOutcome.ok, conn2, evs) =>
          match conn2 with
          | [] => (TxOutcome.ioErr, [], evs)
          | h :: conn3 =>
            match h with
            | Reply.nilReply => (TxOutcome.txFailed, conn3, evs)
            | Reply.errReply m a addr =>
              (TxOutcome.serverErr m a addr, conn3,
                evs ++ applyToAll env cmds m a addr)
            | Reply.arrayHeader _ => (TxOutcome.ok, conn3, evs)
            | _ => (TxOutcome.protoErr, conn3, evs)
        | other => other) = (TxOutcome.ok, replies, [])
      rw [readQueued_statuses env cmds
        (Reply.arrayHeader cmds.length :: replies) []]
    simp only [txPipelineProcessCmds, h1]
    rw [pipelineReadCmdsSeq_spec cmds replies hlen]
    simp

/-- Witness for C9 at two concrete commands: a nil EXEC header gives
`TxFailedErr`; an array header gives one reply per command in order. -/
theorem txPipeline_exec_header_witness :
    (txPipelineProcessCmds ⟨fun _ => true⟩
        (Reply.status :: [7, 8].map (fun _ => Reply.status) ++ [Reply.nilReply])
        [7, 8]).1 = TxOutcome.txFailed
    ∧ txPipelineProcessCmds ⟨fun _ => true⟩
        (Reply.status :: [7, 8].map (fun _ => Reply.status) ++
          Reply.arrayHeader ([7, 8] : List Nat).length ::
            [Reply.value, Reply.value]) [7, 8] =
        (TxOutcome.ok,
         (([7, 8] : List Nat).zip [Reply.value, Reply.value]).map
           (fun p => TxEvent.readReplyFor p.1 p.2)) :=
  txPipeline_exec_header ⟨fun _ => true⟩ [7, 8] [Reply.value, Reply.value]
    (by decide)

end Theorems

end GoRedisCluster
